import Mathlib

/-!
Verification of the rate-limiting engine and API-key-gated request pipeline
of the link-shortener repository.

Shallow embedding conventions:
* Time is modelled as `Nat` milliseconds since the Unix epoch.  The source
  stores `window_start` as the fixed-width ISO-8601 string produced by
  `Date.prototype.toISOString` (`YYYY-MM-DDTHH:mm:ss.sssZ`); for such
  fixed-width renderings lexicographic string comparison coincides with
  numeric comparison of the underlying timestamps, so the embedding keeps
  the numeric value directly.
* The SQLite table `rate_limit_log` is modelled as a `List RateRecord`
  in insertion order; `SELECT ... WHERE` is `List.find?`, the upsert
  `INSERT ... ON CONFLICT(api_key_id, window_start) DO UPDATE SET
  request_count = request_count + 1` is `upsertIncrement`, and
  `DELETE ... WHERE` is `List.filter` (with `result.changes` the number
  of removed rows).
* The `api_keys` table is a `List ApiKey` in insertion order.
* JavaScript number arithmetic on these code paths only ever handles
  integers far below 2^53, so it is embedded as exact `Nat`/`Int`
  arithmetic (`Math.floor(now / W) * W` on Nats is `now / W * W`,
  `Math.ceil(x / 1000)` on a nonnegative integer `x` is `(x + 999) / 1000`).
-/

/-! ## Rate limiter (`src/lib/rate-limiter/repository.ts`) -/

/-- One row of the `rate_limit_log` table. -/
structure RateRecord where
  id : String
  api_key_id : String
  window_start : Nat
  request_count : Nat
  deriving Repr, DecidableEq

/-- `RateLimitConfig` from the source: `{ maxRequests, windowMs }`. -/
structure RateLimitConfig where
  maxRequests : Nat
  windowMs : Nat
  deriving Repr, DecidableEq

/-- `RateLimitResult` from the source.  `retryAfterMs` is optional in the
source (`retryAfterMs?`); `remaining` is computed by JS subtraction, hence
`Int`. -/
structure RateLimitResult where
  allowed : Bool
  remaining : Int
  resetAt : Nat
  retryAfterMs : Option Int
  deriving Repr, DecidableEq

/-- `getWindowStart`: `Math.floor(now.getTime() / windowMs) * windowMs`. -/
def getWindowStart (windowMs now : Nat) : Nat :=
  now / windowMs * windowMs

/-- The `SELECT request_count FROM rate_limit_log WHERE api_key_id = ? AND
window_start = ?` lookup (`.get` returns the first matching row; the unique
index guarantees at most one). -/
def findRateRecord (db : List RateRecord) (apiKeyId : String)
    (windowStart : Nat) : Option RateRecord :=
  db.find? fun r => r.api_key_id == apiKeyId && r.window_start == windowStart

/-- The pre-read `request_count`, with an absent row read as 0
(`existing?.request_count || 0`). -/
def currentCount (db : List RateRecord) (apiKeyId : String)
    (windowStart : Nat) : Nat :=
  ((findRateRecord db apiKeyId windowStart).map RateRecord.request_count).getD 0

/-- The upsert statement: `INSERT ... VALUES (?, ?, ?, 1) ON
CONFLICT(api_key_id, window_start) DO UPDATE SET request_count =
request_count + 1`.  `newId` is the freshly generated `crypto.randomUUID()`
used only when a new row is inserted. -/
def upsertIncrement (db : List RateRecord) (newId apiKeyId : String)
    (windowStart : Nat) : List RateRecord :=
  if (findRateRecord db apiKeyId windowStart).isSome then
    db.map fun r =>
      if r.api_key_id == apiKeyId && r.window_start == windowStart then
        { r with request_count := r.request_count + 1 }
      else r
  else
    db ++ [⟨newId, apiKeyId, windowStart, 1⟩]

/-- `checkRateLimit`: reads the counter for the current window, denies
without writing when `count >= maxRequests`, otherwise upserts and allows.
`now` and the fresh row id `newId` are the source's ambient inputs
(`new Date()`, `crypto.randomUUID()`) made explicit. -/
def checkRateLimit (db : List RateRecord) (apiKeyId : String)
    (config : RateLimitConfig) (now : Nat) (newId : String) :
    RateLimitResult × List RateRecord :=
  let windowStart := getWindowStart config.windowMs now
  let resetAt := windowStart + config.windowMs
  let count := currentCount db apiKeyId windowStart
  if count ≥ config.maxRequests then
    ({ allowed := false
       remaining := 0
       resetAt := resetAt
       retryAfterMs := some (max 0 ((resetAt : Int) - (now : Int))) }, db)
  else
    ({ allowed := true
       remaining := (config.maxRequests : Int) - (count : Int) - 1
       resetAt := resetAt
       retryAfterMs := none },
     upsertIncrement db newId apiKeyId windowStart)

/-- `getRateLimitStatus`: read-only view of the current window. -/
def getRateLimitStatus (db : List RateRecord) (apiKeyId : String)
    (config : RateLimitConfig) (now : Nat) :
    Nat × Int × Nat :=
  let windowStart := getWindowStart config.windowMs now
  let resetAt := windowStart + config.windowMs
  let count := currentCount db apiKeyId windowStart
  (count, max 0 ((config.maxRequests : Int) - (count : Int)), resetAt)

/-- `cleanupOldEntries`: `DELETE FROM rate_limit_log WHERE window_start < ?`
with `cutoff = Date.now() - retentionMs`; returns `result.changes`, the
number of deleted rows, together with the surviving table. -/
def cleanupOldEntries (db : List RateRecord) (retentionMs : Nat) (now : Nat) :
    Nat × List RateRecord :=
  let cutoff : Int := (now : Int) - (retentionMs : Int)
  ((db.filter fun r => (r.window_start : Int) < cutoff).length,
   db.filter fun r => ¬ (r.window_start : Int) < cutoff)

/-! ## SHA-256 (Node `crypto.createHash("sha256")`, as used by `hashApiKey`)

A direct embedding of FIPS 180-4 SHA-256 over byte lists, used byte-for-byte
the way `crypto.createHash("sha256").update(key).digest("hex")` is in the
source.  All words are `Nat` reduced mod 2^32. -/

def w32 (n : Nat) : Nat := n % 4294967296

def rotr32 (n x : Nat) : Nat := w32 ((x >>> n) ||| (x <<< (32 - n)))

def not32 (x : Nat) : Nat := x ^^^ 4294967295

def bigSigma0 (x : Nat) : Nat := rotr32 2 x ^^^ rotr32 13 x ^^^ rotr32 22 x

def bigSigma1 (x : Nat) : Nat := rotr32 6 x ^^^ rotr32 11 x ^^^ rotr32 25 x

def smallSigma0 (x : Nat) : Nat := rotr32 7 x ^^^ rotr32 18 x ^^^ (x >>> 3)

def smallSigma1 (x : Nat) : Nat := rotr32 17 x ^^^ rotr32 19 x ^^^ (x >>> 10)

def chFn (e f g : Nat) : Nat := (e &&& f) ^^^ (not32 e &&& g)

def majFn (a b c : Nat) : Nat := (a &&& b) ^^^ (a &&& c) ^^^ (b &&& c)

/-- The eight 32-bit words of the SHA-256 working state / hash value. -/
structure Sha256H where
  a : Nat
  b : Nat
  c : Nat
  d : Nat
  e : Nat
  f : Nat
  g : Nat
  h : Nat
  deriving Repr, DecidableEq

def sha256InitH : Sha256H :=
  ⟨1779033703, 3144134277, 1013904242, 2773480762,
   1359893119, 2600822924, 528734635, 1541459225⟩

def sha256K : List Nat :=
  [1116352408, 1899447441, 3049323471, 3921009573,
   961987163, 1508970993, 2453635748, 2870763221,
   3624381080, 310598401, 607225278, 1426881987,
   1925078388, 2162078206, 2614888103, 3248222580,
   3835390401, 4022224774, 264347078, 604807628,
   770255983, 1249150122, 1555081692, 1996064986,
   2554220882, 2821834349, 2952996808, 3210313671,
   3336571891, 3584528711, 113926993, 338241895,
   666307205, 773529912, 1294757372, 1396182291,
   1695183700, 1986661051, 2177026350, 2456956037,
   2730485921, 2820302411, 3259730800, 3345764771,
   3516065817, 3600352804, 4094571909, 275423344,
   430227734, 506948616, 659060556, 883997877,
   958139571, 1322822218, 1537002063, 1747873779,
   1955562222, 2024104815, 2227730452, 2361852424,
   2428436474, 2756734187, 3204031479, 3329325298]

/-- Pack a byte list into big-endian 32-bit words (four bytes per word). -/
def bytesToWords : List Nat → List Nat
  | b0 :: b1 :: b2 :: b3 :: rest =>
      ((b0 <<< 24) ||| (b1 <<< 16) ||| (b2 <<< 8) ||| b3) :: bytesToWords rest
  | _ => []

/-- One step of message-schedule extension: append
`σ1(w[t-2]) + w[t-7] + σ0(w[t-15]) + w[t-16]` mod 2^32. -/
def scheduleStep (ws : List Nat) : List Nat :=
  ws ++ [w32 (smallSigma1 (ws.getD (ws.length - 2) 0) +
              ws.getD (ws.length - 7) 0 +
              smallSigma0 (ws.getD (ws.length - 15) 0) +
              ws.getD (ws.length - 16) 0)]

/-- Extend the 16 chunk words to the full 64-word schedule (48 steps). -/
def buildSchedule (ws : List Nat) : Nat → List Nat
  | 0 => ws
  | n + 1 => scheduleStep (buildSchedule ws n)

/-- One SHA-256 compression round for round constant `k` and schedule word
`w`. -/
def sha256Round (st : Sha256H) (kw : Nat × Nat) : Sha256H :=
  let t1 := st.h + bigSigma1 st.e + chFn st.e st.f st.g + kw.1 + kw.2
  let t2 := bigSigma0 st.a + majFn st.a st.b st.c
  ⟨w32 (t1 + t2), st.a, st.b, st.c, w32 (st.d + t1), st.e, st.f, st.g⟩

/-- Process one 64-byte chunk: run the 64 rounds and add the result to the
incoming hash value, word-wise mod 2^32. -/
def sha256Chunk (hv : Sha256H) (chunk : List Nat) : Sha256H :=
  let ws := buildSchedule (bytesToWords chunk) 48
  let st := (sha256K.zip ws).foldl sha256Round hv
  ⟨w32 (hv.a + st.a), w32 (hv.b + st.b), w32 (hv.c + st.c), w32 (hv.d + st.d),
   w32 (hv.e + st.e), w32 (hv.f + st.f), w32 (hv.g + st.g), w32 (hv.h + st.h)⟩

/-- Render a Nat as `n` big-endian bytes. -/
def beBytes (n x : Nat) : List Nat :=
  match n with
  | 0 => []
  | m + 1 => ((x >>> (m * 8)) &&& 255) :: beBytes m x

/-- SHA-256 padding: `0x80`, zeros to 56 mod 64, then the 64-bit big-endian
bit length. -/
def sha256Pad (msg : List Nat) : List Nat :=
  let z := (120 - (msg.length + 1) % 64) % 64
  msg ++ [0x80] ++ List.replicate z 0 ++ beBytes 8 (msg.length * 8)

/-- Split a byte list into 64-byte chunks (structural recursion on a fuel
bound so that the kernel can evaluate it; each step consumes at least one
byte, so `l.length` steps always suffice). -/
def chunks64Go : Nat → List Nat → List (List Nat)
  | 0, _ => []
  | _, [] => []
  | fuel + 1, l => l.take 64 :: chunks64Go fuel (l.drop 64)

/-- Split a byte list into 64-byte chunks. -/
def chunks64 (l : List Nat) : List (List Nat) :=
  chunks64Go l.length l

/-- The SHA-256 digest of a byte list, as 32 bytes. -/
def sha256Bytes (msg : List Nat) : List Nat :=
  let hv := (chunks64 (sha256Pad msg)).foldl sha256Chunk sha256InitH
  beBytes 4 hv.a ++ beBytes 4 hv.b ++ beBytes 4 hv.c ++ beBytes 4 hv.d ++
  beBytes 4 hv.e ++ beBytes 4 hv.f ++ beBytes 4 hv.g ++ beBytes 4 hv.h

/-- Lowercase hex digit for a value below 16 (Node's `digest("hex")` and
`Buffer.toString("hex")` both emit lowercase). -/
def hexChar (n : Nat) : Char :=
  if n < 10 then Char.ofNat (48 + n) else Char.ofNat (87 + n)

/-- Two lowercase hex characters of one byte. -/
def byteToHex (b : Nat) : List Char :=
  [hexChar (b / 16), hexChar (b % 16)]

/-- Hex rendering of a byte list (`Buffer.toString("hex")`). -/
def bytesToHex (bs : List Nat) : String :=
  String.mk (bs.flatMap byteToHex)

/-- UTF-8 bytes of an ASCII string; every string hashed by the source
(`rlk_` + 32 hex characters) is pure ASCII, where UTF-8 is the identity on
code points. -/
def asciiBytes (s : String) : List Nat :=
  s.data.map Char.toNat

/-- `hashApiKey`:
`crypto.createHash("sha256").update(key).digest("hex")`. -/
def hashApiKey (key : String) : String :=
  bytesToHex (sha256Bytes (asciiBytes key))

/-! ## API keys (`src/lib/api-keys/repository.ts`) -/

/-- One row of the `api_keys` table (`ApiKey` interface in the source). -/
structure ApiKey where
  id : String
  user_id : String
  key_hash : String
  name : String
  created_at : String
  last_used_at : Option String
  deriving Repr, DecidableEq

/-- `CreateApiKeyInput` from the source. -/
structure CreateApiKeyInput where
  userId : String
  name : String
  deriving Repr, DecidableEq

/-- `generateApiKey`: `` `rlk_${crypto.randomBytes(16).toString("hex")}` ``,
with the 16 random bytes made an explicit argument. -/
def generateApiKey (randomBytes : List Nat) : String :=
  "rlk_" ++ bytesToHex randomBytes

/-- `getApiKeyById`: `SELECT * FROM api_keys WHERE id = ?` (first matching
row; `id` is the primary key). -/
def getApiKeyById (db : List ApiKey) (id : String) : Option ApiKey :=
  db.find? fun k => k.id == id

/-- `createApiKey`: generates the plain key and its hash, inserts the row
(`created_at` filled by the SQL default, `last_used_at` NULL) and re-reads
it by id.  The ambient inputs `crypto.randomUUID()`, `crypto.randomBytes(16)`
and the row's `datetime('now')` default are explicit arguments.  The first
component models the source's `getApiKeyById(db, id)!` re-read. -/
def createApiKey (db : List ApiKey) (input : CreateApiKeyInput)
    (newId : String) (randomBytes : List Nat) (createdAt : String) :
    Option ApiKey × String × List ApiKey :=
  let plainKey := generateApiKey randomBytes
  let keyHash := hashApiKey plainKey
  let db' := db ++ [⟨newId, input.userId, keyHash, input.name, createdAt, none⟩]
  (getApiKeyById db' newId, plainKey, db')

/-- `validateApiKey`: looks the presented secret up by hash equality
(`SELECT * FROM api_keys WHERE key_hash = ?`, first matching row) and, when
found, runs `UPDATE api_keys SET last_used_at = datetime('now') WHERE id = ?`.
The returned record is the one read before the update, as in the source.
`nowStr` is the SQL `datetime('now')` value. -/
def validateApiKey (db : List ApiKey) (plainKey : String) (nowStr : String) :
    Option ApiKey × List ApiKey :=
  match db.find? (fun k => k.key_hash == hashApiKey plainKey) with
  | none => (none, db)
  | some apiKey =>
      (some apiKey,
       db.map fun j =>
         if j.id == apiKey.id then { j with last_used_at := some nowStr } else j)

/-- `deleteApiKey`: reads the row by id, returns `false` when absent,
otherwise `DELETE FROM api_keys WHERE id = ?` and returns `true` (hard
delete). -/
def deleteApiKey (db : List ApiKey) (id : String) : Bool × List ApiKey :=
  match getApiKeyById db id with
  | none => (false, db)
  | some _ => (true, db.filter fun k => ¬ k.id == id)

/-! ## Combined persistent state and cascading delete

`rate_limit_log.api_key_id` carries
`FOREIGN KEY (api_key_id) REFERENCES api_keys(id) ON DELETE CASCADE`
(migration creating `rate_limit_log`), and every connection runs
`db.pragma("foreign_keys = ON")` (`src/lib/db/index.ts`), so the SQL
`DELETE FROM api_keys WHERE id = ?` issued by `deleteApiKey` also deletes
every `rate_limit_log` row whose `api_key_id` is the deleted id. -/

/-- The two persistent stores the gate touches. -/
structure Stores where
  apiKeys : List ApiKey
  rateLog : List RateRecord
  deriving Repr, DecidableEq

/-- `deleteApiKey` acting on both stores: the explicit `DELETE` on
`api_keys` plus the engine-performed `ON DELETE CASCADE` on
`rate_limit_log`. -/
def deleteApiKeyCascade (st : Stores) (id : String) : Bool × Stores :=
  match getApiKeyById st.apiKeys id with
  | none => (false, st)
  | some _ =>
      (true,
       ⟨st.apiKeys.filter (fun k => ¬ k.id == id),
        st.rateLog.filter (fun r => ¬ r.api_key_id == id)⟩)

/-! ## Request gate (`src/lib/api/with-rate-limit.ts`) -/

/-- The character class `\s` of a JavaScript regex: ASCII whitespace plus
the Unicode space separators, line separators and the BOM. -/
def isJsWhitespace (c : Char) : Bool :=
  c == ' ' || c == '\t' || c == '\n' || c.toNat == 11 || c.toNat == 12 ||
  c == '\r' || c.toNat == 0xa0 || c.toNat == 0x1680 ||
  (0x2000 ≤ c.toNat && c.toNat ≤ 0x200a) ||
  c.toNat == 0x2028 || c.toNat == 0x2029 || c.toNat == 0x202f ||
  c.toNat == 0x205f || c.toNat == 0x3000 || c.toNat == 0xfeff

/-- Case-insensitive character comparison, as the regex `i` flag performs
on ASCII letters. -/
def charCi (a b : Char) : Bool := a.toLower == b.toLower

/-- `[a-f0-9]` under the `i` flag, i.e. `[a-fA-F0-9]`. -/
def isHexDigitCi (c : Char) : Bool :=
  (48 ≤ c.toNat && c.toNat ≤ 57) || (97 ≤ c.toNat && c.toNat ≤ 102) ||
  (65 ≤ c.toNat && c.toNat ≤ 70)

/-- Strip a case-insensitive literal prefix, returning the remainder. -/
def stripPrefixCi : List Char → List Char → Option (List Char)
  | [], cs => some cs
  | _ :: _, [] => none
  | p :: ps, c :: cs => if charCi p c then stripPrefixCi ps cs else none

/-- Consume the regex atom `\s+`: at least one whitespace character, then
greedily all following whitespace (the next atom, `r`/`R`, is never
whitespace, so greedy consumption is exact). -/
def afterSpaces1 : List Char → Option (List Char)
  | [] => none
  | c :: rest =>
      if isJsWhitespace c then some (rest.dropWhile isJsWhitespace) else none

/-- The capture group `(rlk_[a-f0-9]{32})` under the `i` flag, anchored at
the end of the string. -/
def keyShapeOk : List Char → Bool
  | r :: l :: k :: u :: rest =>
      charCi r 'r' && charCi l 'l' && charCi k 'k' && u == '_' &&
      rest.length == 32 && rest.all isHexDigitCi
  | _ => false

/-- `extractApiKey`: `authHeader.match(/^Bearer\s+(rlk_[a-f0-9]{32})$/i)`,
returning the captured group (in its original case) or `null`.  The
`Authorization` header value is the explicit `Option String` argument. -/
def extractApiKey (authHeader : Option String) : Option String :=
  match authHeader with
  | none => none
  | some s =>
      match stripPrefixCi ['b', 'e', 'a', 'r', 'e', 'r'] s.data with
      | none => none
      | some rest =>
          match afterSpaces1 rest with
          | none => none
          | some key => if keyShapeOk key then some (String.mk key) else none

/-- A web response as the gate observes it: status code, body (opaque
string), and a header map with `Headers.set` semantics (set replaces any
existing value of the same name; the names the gate sets are fixed
constants, so exact-name matching models the case-insensitive header
map faithfully). -/
structure HttpResponse where
  status : Nat
  body : String
  headers : List (String × String)
  deriving Repr, DecidableEq

/-- `response.headers.set(name, value)`. -/
def setHeader (r : HttpResponse) (name value : String) : HttpResponse :=
  { r with headers := r.headers.filter (fun p => ¬ p.1 == name) ++ [(name, value)] }

/-- `response.headers.get(name)`. -/
def getHeader (r : HttpResponse) (name : String) : Option String :=
  (r.headers.find? fun p => p.1 == name).map Prod.snd

/-- `addRateLimitHeaders`: sets `X-RateLimit-Limit`,
`X-RateLimit-Remaining` and `X-RateLimit-Reset` (the latter
`Math.ceil(resetAt.getTime() / 1000)`, epoch seconds). -/
def addRateLimitHeaders (response : HttpResponse) (remaining : Int)
    (resetAt : Nat) (limit : Nat) : HttpResponse :=
  setHeader
    (setHeader (setHeader response "X-RateLimit-Limit" (toString limit))
      "X-RateLimit-Remaining" (toString remaining))
    "X-RateLimit-Reset" (toString ((resetAt + 999) / 1000))

/-- Hardcoded dummy user for Phase 1. -/
def DUMMY_USER_ID : String := "user_1"

/-- What a route handler sees (`RateLimitedRequest` minus the raw request
and db handle). -/
structure HandlerContext where
  apiKey : Option ApiKey
  userId : String

/-- `handleRateLimit`/`withRateLimit`: extract the key (missing or
malformed header → dummy user, no rate limiting), validate it (401 on no
match), check the rate limit (429 with `Retry-After` on denial, the
downstream handler plus quota headers on allowance).  `handler` is the
downstream route handler; `now`, `newRowId` and `nowStr` are the ambient
inputs (`new Date()`, `crypto.randomUUID()`, SQL `datetime('now')`) made
explicit.  Returns the outbound response and the resulting stores. -/
def withRateLimit (handler : HandlerContext → HttpResponse) (st : Stores)
    (authHeader : Option String) (config : RateLimitConfig) (now : Nat)
    (newRowId : String) (nowStr : String) : HttpResponse × Stores :=
  match extractApiKey authHeader with
  | none => (handler ⟨none, DUMMY_USER_ID⟩, st)
  | some plainKey =>
      match validateApiKey st.apiKeys plainKey nowStr with
      | (none, _) =>
          (⟨401, "Invalid API key", []⟩, st)
      | (some apiKey, apiKeys') =>
          if (checkRateLimit st.rateLog apiKey.id config now newRowId).1.allowed then
            (addRateLimitHeaders (handler ⟨some apiKey, apiKey.user_id⟩)
              (checkRateLimit st.rateLog apiKey.id config now newRowId).1.remaining
              (checkRateLimit st.rateLog apiKey.id config now newRowId).1.resetAt
              config.maxRequests,
             ⟨apiKeys', (checkRateLimit st.rateLog apiKey.id config now newRowId).2⟩)
          else
            (addRateLimitHeaders
              (setHeader ⟨429, "Rate limit exceeded", []⟩
                "Retry-After"
                (toString
                  ((((checkRateLimit st.rateLog apiKey.id config now newRowId).1.retryAfterMs.getD
                      0).toNat + 999) / 1000)))
              0 (checkRateLimit st.rateLog apiKey.id config now newRowId).1.resetAt
              config.maxRequests,
             ⟨apiKeys', (checkRateLimit st.rateLog apiKey.id config now newRowId).2⟩)

/-- Sequential `checkRateLimit` calls for one credential: each list entry is
the call's `now` and the fresh row id; returns the result list and the final
table. -/
def runChecks (apiKeyId : String) (config : RateLimitConfig) :
    List RateRecord → List (Nat × String) → List RateLimitResult × List RateRecord
  | db, [] => ([], db)
  | db, (now, newId) :: rest =>
      let r := checkRateLimit db apiKeyId config now newId
      let rs := runChecks apiKeyId config r.2 rest
      (r.1 :: rs.1, rs.2)

/-! ## Helper lemmas -/

theorem findRateRecord_eq_none_iff {db : List RateRecord} {C : String} {w : Nat} :
    findRateRecord db C w = none ↔
      ∀ r ∈ db, ¬(r.api_key_id = C ∧ r.window_start = w) := by
  simp [findRateRecord, List.find?_eq_none]

theorem find?_map_of_pred_eq {α : Type} (p : α → Bool) (f : α → α)
    (hpf : ∀ x, p (f x) = p x) :
    ∀ l : List α, (l.map f).find? p = (l.find? p).map f
  | [] => rfl
  | a :: l => by
      cases hp : p a with
      | true =>
          rw [List.map_cons, List.find?_cons_of_pos _ ((hpf a).trans hp),
            List.find?_cons_of_pos _ hp, Option.map_some']
      | false =>
          rw [List.map_cons, List.find?_cons_of_neg _ (by simp [hpf a, hp]),
            List.find?_cons_of_neg _ (by simp [hp])]
          exact find?_map_of_pred_eq p f hpf l

theorem find?_map_bump (C : String) (w : Nat) (db : List RateRecord) :
    ((db.map fun r =>
        if r.api_key_id == C && r.window_start == w then
          { r with request_count := r.request_count + 1 }
        else r).find?
      fun r => r.api_key_id == C && r.window_start == w) =
    (db.find? fun r => r.api_key_id == C && r.window_start == w).map
      fun r =>
        if r.api_key_id == C && r.window_start == w then
          { r with request_count := r.request_count + 1 }
        else r := by
  refine find?_map_of_pred_eq _ _ (fun x => ?_) db
  cases hx : (x.api_key_id == C && x.window_start == w) with
  | true => simp [hx]
  | false => simp [hx]

/-- The pre-read count grows by exactly one across the upsert. -/
theorem currentCount_upsert (db : List RateRecord) (newId C : String) (w : Nat) :
    currentCount (upsertIncrement db newId C w) C w = currentCount db C w + 1 := by
  rcases h : findRateRecord db C w with _ | r
  · have hnone : List.find? (fun r => r.api_key_id == C && r.window_start == w) db
        = none := h
    unfold upsertIncrement
    rw [h]
    simp only [Option.isSome_none, Bool.false_eq_true, if_false]
    unfold currentCount findRateRecord
    rw [List.find?_append, hnone]
    simp
  · have hsome : List.find? (fun r => r.api_key_id == C && r.window_start == w) db
        = some r := h
    unfold upsertIncrement
    rw [h]
    simp only [Option.isSome_some, if_true]
    unfold currentCount findRateRecord
    rw [find?_map_bump, hsome]
    have hr := List.find?_some hsome
    simp only [Bool.and_eq_true, beq_iff_eq] at hr
    simp [hr.1, hr.2]

/-- Windows are half-open intervals: a time whose window start is `w` lies
in `[w, w + W)`. -/
theorem getWindowStart_mem {W t w : Nat} (hW : 0 < W)
    (h : getWindowStart W t = w) : w ≤ t ∧ t < w + W := by
  subst h
  unfold getWindowStart
  refine ⟨Nat.div_mul_le_self t W, ?_⟩
  have h1 := Nat.div_add_mod t W
  have h2 := Nat.mod_lt t hW
  have h3 : W * (t / W) = t / W * W := Nat.mul_comm _ _
  omega

/-- The result list predicted for sequential calls inside window `w`, when
the stored count at the start of the run is `k`: allowed with
`remaining = M - k - 1` while `k < M`, denied with
`retryAfter = max 0 (resetAt - t)` afterwards. -/
def expectedResults (M W w : Nat) : Nat → List (Nat × String) → List RateLimitResult
  | _, [] => []
  | k, (t, _) :: rest =>
      if k < M then
        ⟨true, (M : Int) - (k : Int) - 1, w + W, none⟩ ::
          expectedResults M W w (k + 1) rest
      else
        ⟨false, 0, w + W, some (max 0 ((w + W : Int) - (t : Int)))⟩ ::
          expectedResults M W w k rest

/-- Closed form of a sequential run inside a single window. -/
theorem runChecks_expected (M W : Nat) (C : String) (w : Nat) :
    ∀ (calls : List (Nat × String)) (db : List RateRecord) (k : Nat),
      (∀ c ∈ calls, getWindowStart W c.1 = w) →
      currentCount db C w = k →
      (runChecks C ⟨M, W⟩ db calls).1 = expectedResults M W w k calls
  | [], _, _, _, _ => rfl
  | (t, newId) :: rest, db, k, hw, hk => by
      have hwt : getWindowStart W t = w := hw (t, newId) (List.mem_cons_self _ _)
      have hwrest : ∀ c ∈ rest, getWindowStart W c.1 = w :=
        fun c hc => hw c (List.mem_cons_of_mem _ hc)
      by_cases hkM : k < M
      · have hck : checkRateLimit db C ⟨M, W⟩ t newId =
            (⟨true, (M : Int) - (k : Int) - 1, w + W, none⟩,
             upsertIncrement db newId C w) := by
          have hnot : ¬ M ≤ k := not_le.mpr hkM
          simp [checkRateLimit, hwt, hk, hnot]
        have hnext : currentCount (upsertIncrement db newId C w) C w = k + 1 := by
          rw [currentCount_upsert, hk]
        simp only [runChecks, hck, expectedResults, if_pos hkM]
        exact congrArg _ (runChecks_expected M W C w rest _ (k + 1) hwrest hnext)
      · have hck : checkRateLimit db C ⟨M, W⟩ t newId =
            (⟨false, 0, w + W, some (max 0 ((w + W : Int) - (t : Int)))⟩, db) := by
          have hle : M ≤ k := not_lt.mp hkM
          simp [checkRateLimit, hwt, hk, hle]
        simp only [runChecks, hck, expectedResults, if_neg hkM]
        exact congrArg _ (runChecks_expected M W C w rest db k hwrest hk)

theorem expectedResults_getElem_allowed (M W w : Nat) :
    ∀ (calls : List (Nat × String)) (k i : Nat), k + i < M → i < calls.length →
      (expectedResults M W w k calls)[i]? =
        some ⟨true, (M : Int) - (k : Int) - (i : Int) - 1, w + W, none⟩
  | [], _, i, _, hi => absurd hi (by simp)
  | (t, s) :: rest, k, 0, hkM, _ => by
      simp [expectedResults, Nat.lt_of_le_of_lt (Nat.le_add_right k 0) hkM]
  | (t, s) :: rest, k, i + 1, hkM, hi => by
      have hk : k < M := by omega
      have htail := expectedResults_getElem_allowed M W w rest (k + 1) i
        (by omega) (by simpa using hi)
      simp only [expectedResults, if_pos hk, List.getElem?_cons_succ, htail]
      have : (M : Int) - ((k + 1 : Nat) : Int) - (i : Int) - 1 =
          (M : Int) - (k : Int) - ((i + 1 : Nat) : Int) - 1 := by
        push_cast
        ring
      rw [this]

theorem expectedResults_getElem_denied (M W w : Nat) :
    ∀ (calls : List (Nat × String)) (k i t : Nat) (s : String),
      k + i = M → calls[i]? = some (t, s) →
      (expectedResults M W w k calls)[i]? =
        some ⟨false, 0, w + W, some (max 0 ((w + W : Int) - (t : Int)))⟩
  | [], _, i, _, _, _, hc => by simp at hc
  | (t0, s0) :: rest, k, 0, t, s, hkM, hc => by
      simp only [List.getElem?_cons_zero, Option.some.injEq, Prod.mk.injEq] at hc
      have hnk : ¬ k < M := by omega
      simp [expectedResults, hnk, hc.1]
  | (t0, s0) :: rest, k, i + 1, t, s, hkM, hc => by
      have hk : k < M := by omega
      have htail := expectedResults_getElem_denied M W w rest (k + 1) i t s
        (by omega) (by simpa using hc)
      simp only [expectedResults, if_pos hk, List.getElem?_cons_succ, htail]

/-! ## C1 -/

/-- C1: for `M ≥ 1` and window duration `W ≥ 1`, starting from a table
with no record for credential `C` in the current window `w`, any `M + 1`
sequential `checkRateLimit` calls made inside window `w` behave as the spec
states: the full run matches the predicted list (allowed while the count is
below `M`, denied afterwards), calls `0 .. M-1` are allowed with `remaining`
strictly decreasing through `M-1, M-2, …, 0`, and call `M` is denied with
`remaining = 0` and strictly positive `retryAfterMs` (every call inside the
window happens strictly before `resetAt`). -/
theorem checkRateLimit_first_window_exhaustion
    (M W : Nat) (hM : 1 ≤ M) (hW : 0 < W) (C : String) (db : List RateRecord)
    (calls : List (Nat × String)) (w : Nat)
    (hw : ∀ c ∈ calls, getWindowStart W c.1 = w)
    (h0 : findRateRecord db C w = none)
    (hlen : calls.length = M + 1) :
    (runChecks C ⟨M, W⟩ db calls).1 = expectedResults M W w 0 calls ∧
    (∀ i, i < M →
      (runChecks C ⟨M, W⟩ db calls).1[i]? =
        some ⟨true, (M : Int) - (i : Int) - 1, w + W, none⟩) ∧
    (∀ t newId, calls[M]? = some (t, newId) →
      (runChecks C ⟨M, W⟩ db calls).1[M]? =
        some ⟨false, 0, w + W, some ((w + W : Int) - (t : Int))⟩ ∧
      0 < (w + W : Int) - (t : Int)) := by
  have hcount : currentCount db C w = 0 := by
    unfold currentCount
    rw [h0]
    rfl
  have hrun := runChecks_expected M W C w calls db 0 hw hcount
  refine ⟨hrun, fun i hi => ?_, fun t newId hc => ?_⟩
  · rw [hrun]
    have := expectedResults_getElem_allowed M W w calls 0 i (by omega)
      (by omega)
    simpa using this
  · have hmem : (t, newId) ∈ calls := by
      have := List.getElem?_mem hc
      exact this
    have hbound := getWindowStart_mem hW (hw (t, newId) hmem)
    have hpos : 0 < (w + W : Int) - (t : Int) := by
      have := hbound.2
      omega
    refine ⟨?_, hpos⟩
    rw [hrun]
    have := expectedResults_getElem_denied M W w calls 0 M t newId (by omega) hc
    rw [this]
    have hmax : max 0 ((w + W : Int) - (t : Int)) = (w + W : Int) - (t : Int) := by
      omega
    rw [hmax]

theorem checkRateLimit_first_window_exhaustion_witness :
    1 ≤ 2 ∧ (0 : Nat) < 1000 ∧
    (∀ c ∈ [((0 : Nat), "a"), (1, "b"), (2, "c")], getWindowStart 1000 c.1 = 0) ∧
    findRateRecord [] "k" 0 = none ∧
    ([((0 : Nat), "a"), (1, "b"), (2, "c")].length = 2 + 1) ∧
    ((runChecks "k" ⟨2, 1000⟩ [] [((0 : Nat), "a"), (1, "b"), (2, "c")]).1 =
        expectedResults 2 1000 0 0 [((0 : Nat), "a"), (1, "b"), (2, "c")] ∧
      (∀ i, i < 2 →
        (runChecks "k" ⟨2, 1000⟩ [] [((0 : Nat), "a"), (1, "b"), (2, "c")]).1[i]? =
          some ⟨true, (2 : Int) - (i : Int) - 1, 0 + 1000, none⟩) ∧
      (∀ (t : Nat) (newId : String),
          [((0 : Nat), "a"), (1, "b"), (2, "c")][2]? = some (t, newId) →
        (runChecks "k" ⟨2, 1000⟩ [] [((0 : Nat), "a"), (1, "b"), (2, "c")]).1[2]? =
          some ⟨false, 0, 0 + 1000, some ((0 + 1000 : Int) - (t : Int))⟩ ∧
        0 < (0 + 1000 : Int) - (t : Int))) :=
  ⟨by decide, by decide, by decide, by decide, by decide,
   checkRateLimit_first_window_exhaustion 2 1000 (by decide) (by decide) "k" []
     [((0 : Nat), "a"), (1, "b"), (2, "c")] 0 (by decide) (by decide) (by decide)⟩

/-! ## C2 -/

/-- C2: when the pre-read count for the current window has reached
`maxRequests`, `checkRateLimit` denies without writing: the counter table
is returned untouched (so the stored count — in particular a count of
exactly `M` — never grows across denied calls), with `allowed = false` and
`remaining = 0`. -/
theorem checkRateLimit_denied_no_write
    (db : List RateRecord) (C newId : String) (M W now : Nat)
    (h : M ≤ currentCount db C (getWindowStart W now)) :
    (checkRateLimit db C ⟨M, W⟩ now newId).2 = db ∧
    (checkRateLimit db C ⟨M, W⟩ now newId).1.allowed = false ∧
    (checkRateLimit db C ⟨M, W⟩ now newId).1.remaining = 0 ∧
    currentCount (checkRateLimit db C ⟨M, W⟩ now newId).2 C (getWindowStart W now) =
      currentCount db C (getWindowStart W now) := by
  simp [checkRateLimit, h]

theorem checkRateLimit_denied_no_write_witness :
    2 ≤ currentCount [⟨"a", "k", 0, 2⟩] "k" (getWindowStart 1000 100) ∧
    ((checkRateLimit [⟨"a", "k", 0, 2⟩] "k" ⟨2, 1000⟩ 100 "b").2 = [⟨"a", "k", 0, 2⟩] ∧
     (checkRateLimit [⟨"a", "k", 0, 2⟩] "k" ⟨2, 1000⟩ 100 "b").1.allowed = false ∧
     (checkRateLimit [⟨"a", "k", 0, 2⟩] "k" ⟨2, 1000⟩ 100 "b").1.remaining = 0 ∧
     currentCount (checkRateLimit [⟨"a", "k", 0, 2⟩] "k" ⟨2, 1000⟩ 100 "b").2 "k"
         (getWindowStart 1000 100) =
       currentCount [⟨"a", "k", 0, 2⟩] "k" (getWindowStart 1000 100)) :=
  ⟨by decide, checkRateLimit_denied_no_write _ _ _ _ _ _ (by decide)⟩

/-! ## C5 -/

/-- C5: windows are epoch-aligned — every `checkRateLimit` result carries
`resetAt = floor(now/W)*W + W` — and the spec's scenario holds: with
`M = 5`, `W = 60000`, six sequential checks at `t = 0` from an empty table
yield `[true ×5, false]` with `remaining` counting down `4..0`, the denial
carrying `remaining = 0` and `retryAfterMs = 60000`; a further check at
`t = 60001` (past `resetAt`) is allowed again with `remaining = 4`. -/
theorem checkRateLimit_window_reset_scenario :
    (∀ (db : List RateRecord) (C newId : String) (M W now : Nat),
      (checkRateLimit db C ⟨M, W⟩ now newId).1.resetAt =
        getWindowStart W now + W) ∧
    (runChecks "k" ⟨5, 60000⟩ []
        [(0, "a"), (0, "b"), (0, "c"), (0, "d"), (0, "e"), (0, "f")]).1 =
      [⟨true, 4, 60000, none⟩, ⟨true, 3, 60000, none⟩, ⟨true, 2, 60000, none⟩,
       ⟨true, 1, 60000, none⟩, ⟨true, 0, 60000, none⟩,
       ⟨false, 0, 60000, some 60000⟩] ∧
    (checkRateLimit
        (runChecks "k" ⟨5, 60000⟩ []
          [(0, "a"), (0, "b"), (0, "c"), (0, "d"), (0, "e"), (0, "f")]).2
        "k" ⟨5, 60000⟩ 60001 "g").1 = ⟨true, 4, 120000, none⟩ := by
  refine ⟨fun db C newId M W now => ?_, by decide, by decide⟩
  by_cases h : M ≤ currentCount db C (getWindowStart W now)
  · simp [checkRateLimit, h]
  · simp [checkRateLimit, h]

/-! ## C9 -/

/-- The composite-key invariant of `rate_limit_log`: at most one row per
`(api_key_id, window_start)` pair (the `UNIQUE INDEX
idx_rate_limit_log_key_window`). -/
def UniqueKeyWindow (db : List RateRecord) : Prop :=
  db.Pairwise fun a b => ¬(a.api_key_id = b.api_key_id ∧ a.window_start = b.window_start)

/-- The conditional increment used by the upsert keeps both key fields. -/
theorem bump_keys (C : String) (w : Nat) (x : RateRecord) :
    ((if x.api_key_id == C && x.window_start == w then
        { x with request_count := x.request_count + 1 } else x).api_key_id
      = x.api_key_id) ∧
    ((if x.api_key_id == C && x.window_start == w then
        { x with request_count := x.request_count + 1 } else x).window_start
      = x.window_start) := by
  cases hx : (x.api_key_id == C && x.window_start == w) with
  | true => simp [hx]
  | false => simp [hx]

theorem uniqueKeyWindow_upsert (db : List RateRecord) (newId C : String)
    (w : Nat) (h : UniqueKeyWindow db) :
    UniqueKeyWindow (upsertIncrement db newId C w) := by
  unfold upsertIncrement
  by_cases hs : (findRateRecord db C w).isSome
  · rw [if_pos hs]
    unfold UniqueKeyWindow at h ⊢
    rw [List.pairwise_map]
    refine h.imp ?_
    intro a b hab
    rw [(bump_keys C w a).1, (bump_keys C w a).2,
      (bump_keys C w b).1, (bump_keys C w b).2]
    exact hab
  · rw [if_neg hs]
    have hnone : findRateRecord db C w = none := by
      cases hfind : findRateRecord db C w with
      | none => rfl
      | some r => rw [hfind] at hs; simp at hs
    unfold UniqueKeyWindow
    rw [List.pairwise_append]
    refine ⟨h, List.pairwise_singleton _ _, ?_⟩
    intro a ha b hb
    simp only [List.mem_singleton] at hb
    subst hb
    exact findRateRecord_eq_none_iff.mp hnone a ha

theorem countP_upsert_existing (db : List RateRecord) (newId C : String)
    (w : Nat) (hs : (findRateRecord db C w).isSome) (p : String) (q : Nat) :
    ((upsertIncrement db newId C w).countP
      fun r => r.api_key_id == p && r.window_start == q) =
    (db.countP fun r => r.api_key_id == p && r.window_start == q) := by
  unfold upsertIncrement
  rw [if_pos hs, List.countP_map]
  refine List.countP_congr ?_
  intro x _
  simp only [Function.comp_apply]
  rw [(bump_keys C w x).1, (bump_keys C w x).2]

theorem checkRateLimit_store_cases (db : List RateRecord) (C : String)
    (cfg : RateLimitConfig) (now : Nat) (newId : String) :
    (checkRateLimit db C cfg now newId).2 = db ∨
    (checkRateLimit db C cfg now newId).2 =
      upsertIncrement db newId C (getWindowStart cfg.windowMs now) := by
  by_cases h : cfg.maxRequests ≤ currentCount db C (getWindowStart cfg.windowMs now)
  · left
    simp [checkRateLimit, h]
  · right
    simp [checkRateLimit, h]

/-- C9: the composite-key invariant — at most one `rate_limit_log` row per
`(api_key_id, window_start)` pair — is preserved by `checkRateLimit` and by
`cleanupOldEntries` (`getRateLimitStatus` only reads, so it cannot disturb
it), and when a pair already has a row `checkRateLimit` never inserts a
second one: the number of rows of every pair is left unchanged (the
existing row is incremented in place). -/
theorem rateLog_unique_pair_invariant
    (db : List RateRecord) (C newId : String) (cfg : RateLimitConfig)
    (now retentionMs cleanNow : Nat)
    (h : UniqueKeyWindow db) :
    UniqueKeyWindow (checkRateLimit db C cfg now newId).2 ∧
    UniqueKeyWindow (cleanupOldEntries db retentionMs cleanNow).2 ∧
    ((findRateRecord db C (getWindowStart cfg.windowMs now)).isSome →
      ∀ (p : String) (q : Nat),
        ((checkRateLimit db C cfg now newId).2.countP
          fun r => r.api_key_id == p && r.window_start == q) =
        (db.countP fun r => r.api_key_id == p && r.window_start == q)) := by
  refine ⟨?_, ?_, ?_⟩
  · rcases checkRateLimit_store_cases db C cfg now newId with hc | hc
    · rw [hc]; exact h
    · rw [hc]; exact uniqueKeyWindow_upsert _ _ _ _ h
  · exact List.Pairwise.sublist (List.filter_sublist db) h
  · intro hs p q
    rcases checkRateLimit_store_cases db C cfg now newId with hc | hc
    · rw [hc]
    · rw [hc]
      exact countP_upsert_existing db newId C _ hs p q

theorem rateLog_unique_pair_invariant_witness :
    UniqueKeyWindow [⟨"a", "k", 0, 2⟩, ⟨"b", "k", 1000, 1⟩] ∧
    (UniqueKeyWindow
        (checkRateLimit [⟨"a", "k", 0, 2⟩, ⟨"b", "k", 1000, 1⟩] "k" ⟨5, 1000⟩ 100 "c").2 ∧
      UniqueKeyWindow
        (cleanupOldEntries [⟨"a", "k", 0, 2⟩, ⟨"b", "k", 1000, 1⟩] 500 1500).2 ∧
      ((findRateRecord [⟨"a", "k", 0, 2⟩, ⟨"b", "k", 1000, 1⟩] "k"
            (getWindowStart 1000 100)).isSome →
        ∀ (p : String) (q : Nat),
          ((checkRateLimit [⟨"a", "k", 0, 2⟩, ⟨"b", "k", 1000, 1⟩] "k" ⟨5, 1000⟩ 100 "c").2.countP
            fun r => r.api_key_id == p && r.window_start == q) =
          (List.countP (fun (r : RateRecord) => r.api_key_id == p && r.window_start == q)
            [⟨"a", "k", 0, 2⟩, ⟨"b", "k", 1000, 1⟩]))) :=
  ⟨by unfold UniqueKeyWindow; decide,
   rateLog_unique_pair_invariant [⟨"a", "k", 0, 2⟩, ⟨"b", "k", 1000, 1⟩] "k" "c"
     ⟨5, 1000⟩ 100 500 1500 (by unfold UniqueKeyWindow; decide)⟩

/-! ## Gate helper lemmas -/

theorem validateApiKey_some {keys : List ApiKey} {plainKey nowStr : String}
    {apiKey : ApiKey} {keys' : List ApiKey}
    (h : validateApiKey keys plainKey nowStr = (some apiKey, keys')) :
    apiKey ∈ keys ∧
    keys' = keys.map fun j =>
      if j.id == apiKey.id then { j with last_used_at := some nowStr } else j := by
  unfold validateApiKey at h
  cases hf : keys.find? (fun k => k.key_hash == hashApiKey plainKey) with
  | none =>
      rw [hf] at h
      simp at h
  | some k0 =>
      rw [hf] at h
      simp only [Prod.mk.injEq, Option.some.injEq] at h
      obtain ⟨hk0, hkeys⟩ := h
      subst hk0
      exact ⟨List.mem_of_find?_eq_some hf, hkeys.symm⟩

theorem validateApiKey_none {keys : List ApiKey} {plainKey nowStr : String}
    {keys' : List ApiKey}
    (h : validateApiKey keys plainKey nowStr = (none, keys')) : keys' = keys := by
  unfold validateApiKey at h
  cases hf : keys.find? (fun k => k.key_hash == hashApiKey plainKey) with
  | none =>
      rw [hf] at h
      simpa using h.symm
  | some k0 =>
      rw [hf] at h
      simp at h

/-- The store returned by the gate: unchanged on the no-key and 401 paths,
and on the validated paths it is the validator-updated credential table
paired with the limiter-updated counter table. -/
theorem withRateLimit_store_cases (handler : HandlerContext → HttpResponse)
    (st : Stores) (authHeader : Option String) (cfg : RateLimitConfig)
    (now : Nat) (newRowId nowStr : String) :
    (withRateLimit handler st authHeader cfg now newRowId nowStr).2 = st ∨
    ∃ (plainKey : String) (apiKey : ApiKey),
      extractApiKey authHeader = some plainKey ∧
      (validateApiKey st.apiKeys plainKey nowStr).1 = some apiKey ∧
      (withRateLimit handler st authHeader cfg now newRowId nowStr).2 =
        ⟨(validateApiKey st.apiKeys plainKey nowStr).2,
         (checkRateLimit st.rateLog apiKey.id cfg now newRowId).2⟩ := by
  unfold withRateLimit
  cases hex : extractApiKey authHeader with
  | none => left; rfl
  | some plainKey =>
      rcases hv : validateApiKey st.apiKeys plainKey nowStr with ⟨v, keys'⟩
      cases v with
      | none => left; simp only [hv]
      | some apiKey =>
          right
          refine ⟨plainKey, apiKey, rfl, by rw [hv], ?_⟩
          simp only [hv]
          by_cases hall : (checkRateLimit st.rateLog apiKey.id cfg now newRowId).1.allowed
          · rw [if_pos hall]
          · rw [if_neg hall]

theorem checkRateLimit_denied_eq (db : List RateRecord) (C newId : String)
    (cfg : RateLimitConfig) (now : Nat)
    (h : cfg.maxRequests ≤ currentCount db C (getWindowStart cfg.windowMs now)) :
    checkRateLimit db C cfg now newId =
      (⟨false, 0, getWindowStart cfg.windowMs now + cfg.windowMs,
        some (max 0
          ((getWindowStart cfg.windowMs now + cfg.windowMs : Int) - (now : Int)))⟩,
       db) := by
  simp [checkRateLimit, h]

theorem checkRateLimit_allowed_eq (db : List RateRecord) (C newId : String)
    (cfg : RateLimitConfig) (now : Nat)
    (h : ¬ cfg.maxRequests ≤ currentCount db C (getWindowStart cfg.windowMs now)) :
    checkRateLimit db C cfg now newId =
      (⟨true,
        (cfg.maxRequests : Int) -
          (currentCount db C (getWindowStart cfg.windowMs now) : Int) - 1,
        getWindowStart cfg.windowMs now + cfg.windowMs, none⟩,
       upsertIncrement db newId C (getWindowStart cfg.windowMs now)) := by
  simp [checkRateLimit, h]

theorem find?_filter_of_imp {α : Type} (p q : α → Bool)
    (h : ∀ x, p x = true → q x = true) :
    ∀ l : List α, (l.filter q).find? p = l.find? p
  | [] => rfl
  | a :: l => by
      cases hq : q a with
      | true =>
          rw [List.filter_cons_of_pos hq]
          cases hp : p a with
          | true => rw [List.find?_cons_of_pos _ hp, List.find?_cons_of_pos _ hp]
          | false =>
              rw [List.find?_cons_of_neg _ (by simp [hp]),
                List.find?_cons_of_neg _ (by simp [hp])]
              exact find?_filter_of_imp p q h l
      | false =>
          rw [List.filter_cons_of_neg (by simp [hq])]
          have hp : p a = false := by
            cases hpa : p a with
            | true => rw [h a hpa] at hq; cases hq
            | false => rfl
          rw [List.find?_cons_of_neg _ (by simp [hp])]
          exact find?_filter_of_imp p q h l

theorem getHeader_setHeader_self (r : HttpResponse) (n v : String) :
    getHeader (setHeader r n v) n = some v := by
  unfold getHeader setHeader
  rw [List.find?_append]
  have hnone : (r.headers.filter fun p => ¬ p.1 == n).find? (fun p => p.1 == n)
      = none := by
    rw [List.find?_eq_none]
    intro x hx
    have := (List.mem_filter.mp hx).2
    simpa using this
  rw [hnone]
  simp

theorem getHeader_setHeader_ne (r : HttpResponse) (n v n' : String)
    (h : n' ≠ n) :
    getHeader (setHeader r n v) n' = getHeader r n' := by
  unfold getHeader setHeader
  rw [List.find?_append]
  rw [find?_filter_of_imp (fun (p : String × String) => p.1 == n')
    (fun (p : String × String) => decide ¬((p.1 == n) = true))
    (by
      intro x hx
      simp only [beq_iff_eq] at hx
      simp [hx, h])]
  cases hf : r.headers.find? (fun p => p.1 == n') with
  | none =>
      have hnv : ((n, v).1 == n') = false := by
        simp only [beq_eq_false_iff_ne]
        exact fun he => h he.symm
      simp [List.find?_singleton, hnv]
  | some x => rfl

theorem setHeader_status (r : HttpResponse) (n v : String) :
    (setHeader r n v).status = r.status := rfl

theorem setHeader_body (r : HttpResponse) (n v : String) :
    (setHeader r n v).body = r.body := rfl

theorem addRateLimitHeaders_status (r : HttpResponse) (a : Int) (b c : Nat) :
    (addRateLimitHeaders r a b c).status = r.status := rfl

theorem addRateLimitHeaders_body (r : HttpResponse) (a : Int) (b c : Nat) :
    (addRateLimitHeaders r a b c).body = r.body := rfl

theorem getHeader_addRateLimitHeaders_reset (r : HttpResponse) (a : Int)
    (b c : Nat) :
    getHeader (addRateLimitHeaders r a b c) "X-RateLimit-Reset" =
      some (toString ((b + 999) / 1000)) :=
  getHeader_setHeader_self _ _ _

theorem getHeader_addRateLimitHeaders_remaining (r : HttpResponse) (a : Int)
    (b c : Nat) :
    getHeader (addRateLimitHeaders r a b c) "X-RateLimit-Remaining" =
      some (toString a) := by
  unfold addRateLimitHeaders
  rw [getHeader_setHeader_ne _ _ _ _ (by decide)]
  exact getHeader_setHeader_self _ _ _

theorem getHeader_addRateLimitHeaders_limit (r : HttpResponse) (a : Int)
    (b c : Nat) :
    getHeader (addRateLimitHeaders r a b c) "X-RateLimit-Limit" =
      some (toString c) := by
  unfold addRateLimitHeaders
  rw [getHeader_setHeader_ne _ _ _ _ (by decide),
    getHeader_setHeader_ne _ _ _ _ (by decide)]
  exact getHeader_setHeader_self _ _ _

theorem getHeader_addRateLimitHeaders_other (r : HttpResponse) (a : Int)
    (b c : Nat) (name : String)
    (h1 : name ≠ "X-RateLimit-Limit") (h2 : name ≠ "X-RateLimit-Remaining")
    (h3 : name ≠ "X-RateLimit-Reset") :
    getHeader (addRateLimitHeaders r a b c) name = getHeader r name := by
  unfold addRateLimitHeaders
  rw [getHeader_setHeader_ne _ _ _ _ h3, getHeader_setHeader_ne _ _ _ _ h2,
    getHeader_setHeader_ne _ _ _ _ h1]

/-! ## C10 -/

/-- Referential integrity between the two stores: every `rate_limit_log`
row references an existing `api_keys` row (the schema's
`FOREIGN KEY (api_key_id) REFERENCES api_keys(id)`). -/
def RefIntegrity (st : Stores) : Prop :=
  ∀ r ∈ st.rateLog, ∃ k ∈ st.apiKeys, k.id = r.api_key_id

/-- C10: referential integrity is an invariant.  Revoking a credential via
the cascading delete removes every one of its counter rows in the same
operation (none of its rows survive), preserves the foreign-key invariant,
and reports `true` exactly when the credential existed; and a full pass of
the request gate (which is what inserts counter rows, always under a
just-validated credential) preserves the invariant as well — so no modelled
operation leaves an orphaned counter row. -/
theorem rateLog_referential_integrity
    (st : Stores) (delId : String) (handler : HandlerContext → HttpResponse)
    (authHeader : Option String) (cfg : RateLimitConfig) (now : Nat)
    (newRowId nowStr : String)
    (h : RefIntegrity st) :
    RefIntegrity (deleteApiKeyCascade st delId).2 ∧
    (∀ r ∈ (deleteApiKeyCascade st delId).2.rateLog, r.api_key_id ≠ delId) ∧
    (deleteApiKeyCascade st delId).1 = (getApiKeyById st.apiKeys delId).isSome ∧
    RefIntegrity (withRateLimit handler st authHeader cfg now newRowId nowStr).2 := by
  refine ⟨?_, ?_, ?_, ?_⟩
  · unfold deleteApiKeyCascade
    cases hg : getApiKeyById st.apiKeys delId with
    | none => exact h
    | some k0 =>
        intro r hr
        simp only [List.mem_filter] at hr
        obtain ⟨hrmem, hrpred⟩ := hr
        obtain ⟨k, hkmem, hkid⟩ := h r hrmem
        refine ⟨k, ?_, hkid⟩
        simp only [List.mem_filter]
        refine ⟨hkmem, ?_⟩
        simp only [decide_not, Bool.not_eq_false', decide_eq_false_iff_not] at hrpred ⊢
        rw [hkid]
        exact hrpred
  · unfold deleteApiKeyCascade
    cases hg : getApiKeyById st.apiKeys delId with
    | none =>
        intro r hr
        obtain ⟨k, hkmem, hkid⟩ := h r hr
        intro hrid
        have : getApiKeyById st.apiKeys delId ≠ none := by
          unfold getApiKeyById
          intro hnone
          have := List.find?_eq_none.mp hnone k hkmem
          simp [hkid, hrid] at this
        exact this hg
    | some k0 =>
        intro r hr
        simp only [List.mem_filter] at hr
        simpa using hr.2
  · unfold deleteApiKeyCascade
    cases hg : getApiKeyById st.apiKeys delId with
    | none => rfl
    | some k0 => rfl
  · rcases withRateLimit_store_cases handler st authHeader cfg now newRowId nowStr
      with hc | ⟨plainKey, apiKey, _, hvfst, hc⟩
    · rw [hc]; exact h
    · rw [hc]
      rcases hvp : validateApiKey st.apiKeys plainKey nowStr with ⟨v, keys'⟩
      have hv1 : v = some apiKey := by
        rw [hvp] at hvfst
        exact hvfst
      subst hv1
      obtain ⟨hmem, hkeys'⟩ := validateApiKey_some hvp
      have hidkeep : ∀ k ∈ st.apiKeys, ∃ j ∈ keys', j.id = k.id := by
        intro k hk
        refine ⟨_, hkeys' ▸ List.mem_map_of_mem _ hk, ?_⟩
        by_cases hx : (k.id == apiKey.id) = true
        · simp [hx]
        · simp [hx]
      show RefIntegrity ⟨keys', (checkRateLimit st.rateLog apiKey.id cfg now newRowId).2⟩
      intro r hr
      rcases checkRateLimit_store_cases st.rateLog apiKey.id cfg now newRowId
        with hs | hs
      · rw [hs] at hr
        obtain ⟨k, hkmem, hkid⟩ := h r hr
        obtain ⟨j, hjmem, hjid⟩ := hidkeep k hkmem
        exact ⟨j, hjmem, hjid.trans hkid⟩
      · rw [hs] at hr
        unfold upsertIncrement at hr
        by_cases hfs : (findRateRecord st.rateLog apiKey.id
            (getWindowStart cfg.windowMs now)).isSome
        · rw [if_pos hfs] at hr
          obtain ⟨r0, hr0mem, hr0eq⟩ := List.mem_map.mp hr
          obtain ⟨k, hkmem, hkid⟩ := h r0 hr0mem
          obtain ⟨j, hjmem, hjid⟩ := hidkeep k hkmem
          refine ⟨j, hjmem, ?_⟩
          rw [hjid, hkid, ← hr0eq,
            (bump_keys apiKey.id (getWindowStart cfg.windowMs now) r0).1]
        · rw [if_neg hfs] at hr
          rcases List.mem_append.mp hr with hr | hr
          · obtain ⟨k, hkmem, hkid⟩ := h r hr
            obtain ⟨j, hjmem, hjid⟩ := hidkeep k hkmem
            exact ⟨j, hjmem, hjid.trans hkid⟩
          · simp only [List.mem_singleton] at hr
            subst hr
            obtain ⟨j, hjmem, hjid⟩ := hidkeep apiKey hmem
            exact ⟨j, hjmem, hjid⟩

theorem rateLog_referential_integrity_witness :
    RefIntegrity ⟨[⟨"k1", "user_1", "h1", "n", "c", none⟩], [⟨"r1", "k1", 0, 1⟩]⟩ ∧
    (RefIntegrity
        (deleteApiKeyCascade
          ⟨[⟨"k1", "user_1", "h1", "n", "c", none⟩], [⟨"r1", "k1", 0, 1⟩]⟩ "k1").2 ∧
      (∀ r ∈ (deleteApiKeyCascade
          ⟨[⟨"k1", "user_1", "h1", "n", "c", none⟩], [⟨"r1", "k1", 0, 1⟩]⟩ "k1").2.rateLog,
        r.api_key_id ≠ "k1") ∧
      (deleteApiKeyCascade
          ⟨[⟨"k1", "user_1", "h1", "n", "c", none⟩], [⟨"r1", "k1", 0, 1⟩]⟩ "k1").1 =
        (getApiKeyById [⟨"k1", "user_1", "h1", "n", "c", none⟩] "k1").isSome ∧
      RefIntegrity
        (withRateLimit (fun _ => ⟨200, "ok", []⟩)
          ⟨[⟨"k1", "user_1", "h1", "n", "c", none⟩], [⟨"r1", "k1", 0, 1⟩]⟩
          none ⟨5, 1000⟩ 0 "r2" "t").2) :=
  ⟨by intro r hr; exact ⟨⟨"k1", "user_1", "h1", "n", "c", none⟩, by decide,
      by simp only [List.mem_singleton] at hr; rw [hr]⟩,
   rateLog_referential_integrity
     ⟨[⟨"k1", "user_1", "h1", "n", "c", none⟩], [⟨"r1", "k1", 0, 1⟩]⟩ "k1"
     (fun _ => ⟨200, "ok", []⟩) none ⟨5, 1000⟩ 0 "r2" "t"
     (by intro r hr; exact ⟨⟨"k1", "user_1", "h1", "n", "c", none⟩, by decide,
       by simp only [List.mem_singleton] at hr; rw [hr]⟩)⟩

/-! ## C8 helper lemmas -/

theorem beBytes_length (n : Nat) : ∀ x : Nat, (beBytes n x).length = n := by
  induction n with
  | zero => intro x; rfl
  | succ m ih => intro x; simp [beBytes, ih]

theorem sha256Bytes_length (msg : List Nat) : (sha256Bytes msg).length = 32 := by
  unfold sha256Bytes
  simp [beBytes_length]

theorem flatMap_byteToHex_length :
    ∀ bs : List Nat, (bs.flatMap byteToHex).length = 2 * bs.length
  | [] => rfl
  | b :: rest => by
      simp only [List.flatMap_cons, List.length_append,
        flatMap_byteToHex_length rest, byteToHex, List.length_cons,
        List.length_nil, List.length_singleton]
      omega

theorem bytesToHex_length (bs : List Nat) :
    (bytesToHex bs).length = 2 * bs.length := by
  show (bs.flatMap byteToHex).length = 2 * bs.length
  exact flatMap_byteToHex_length bs

theorem hashApiKey_length (key : String) : (hashApiKey key).length = 64 := by
  unfold hashApiKey
  rw [bytesToHex_length, sha256Bytes_length]

/-- Lowercase-hex character predicate (`0-9` or `a-f`), as the spec's
`rlk_` + 32 lowercase-hex pattern and Node's lowercase `digest("hex")`
require. -/
def isLowerHexChar (c : Char) : Bool :=
  (48 ≤ c.toNat && c.toNat ≤ 57) || (97 ≤ c.toNat && c.toNat ≤ 102)

theorem hexChar_isLowerHex : ∀ n < 16, isLowerHexChar (hexChar n) = true := by
  decide

theorem byteToHex_isLowerHex {b : Nat} (hb : b < 256) :
    ∀ c ∈ byteToHex b, isLowerHexChar c = true := by
  intro c hc
  unfold byteToHex at hc
  simp only [List.mem_cons, List.mem_singleton, List.not_mem_nil, or_false] at hc
  rcases hc with hc | hc
  · subst hc
    exact hexChar_isLowerHex (b / 16) (by omega)
  · subst hc
    exact hexChar_isLowerHex (b % 16) (by omega)

theorem generateApiKey_length {randomBytes : List Nat}
    (hlen : randomBytes.length = 16) :
    (generateApiKey randomBytes).length = 36 := by
  unfold generateApiKey
  rw [String.length_append, bytesToHex_length, hlen]
  rfl

theorem generateApiKey_data (randomBytes : List Nat) :
    (generateApiKey randomBytes).data =
      ['r', 'l', 'k', '_'] ++ randomBytes.flatMap byteToHex := by
  unfold generateApiKey
  rw [String.data_append]
  rfl

/-! ## C8 -/

/-- C8: credential lifecycle round-trip.  For fresh inputs (a new row id, a
plaintext whose hash no existing row carries): the issued plaintext is
`rlk_` followed by 32 lowercase hex characters (36 characters total); the
created row stores the SHA-256 hash, which never equals the plaintext (the
hex digest has 64 characters, the plaintext 36); validating the plaintext
immediately after issuance returns exactly the created credential; deleting
the credential by id returns `true` and restores the previous table (hard
delete), after which validating the plaintext finds nothing; and in
general `deleteApiKey` reports `true` exactly when a row with the given id
existed. -/
theorem apiKey_lifecycle_roundtrip
    (db : List ApiKey) (input : CreateApiKeyInput)
    (newId createdAt nowStr : String) (randomBytes : List Nat)
    (hlen : randomBytes.length = 16)
    (hbytes : ∀ b ∈ randomBytes, b < 256)
    (hfreshId : getApiKeyById db newId = none)
    (hfreshHash : ∀ k ∈ db, k.key_hash ≠ hashApiKey (generateApiKey randomBytes)) :
    (generateApiKey randomBytes).length = 36 ∧
    (generateApiKey randomBytes).data.take 4 = ['r', 'l', 'k', '_'] ∧
    (∀ c ∈ (generateApiKey randomBytes).data.drop 4, isLowerHexChar c = true) ∧
    (createApiKey db input newId randomBytes createdAt).1 =
      some ⟨newId, input.userId, hashApiKey (generateApiKey randomBytes),
            input.name, createdAt, none⟩ ∧
    hashApiKey (generateApiKey randomBytes) ≠ generateApiKey randomBytes ∧
    (validateApiKey (createApiKey db input newId randomBytes createdAt).2.2
        (generateApiKey randomBytes) nowStr).1 =
      some ⟨newId, input.userId, hashApiKey (generateApiKey randomBytes),
            input.name, createdAt, none⟩ ∧
    deleteApiKey (createApiKey db input newId randomBytes createdAt).2.2 newId =
      (true, db) ∧
    (validateApiKey db (generateApiKey randomBytes) nowStr).1 = none ∧
    (∀ (keys : List ApiKey) (someId : String),
      (deleteApiKey keys someId).1 = (getApiKeyById keys someId).isSome) := by
  have hIdNone : List.find? (fun k : ApiKey => k.id == newId) db = none := hfreshId
  have hHashNone : List.find?
      (fun k : ApiKey => k.key_hash == hashApiKey (generateApiKey randomBytes)) db
      = none := by
    rw [List.find?_eq_none]
    intro k hk
    simpa using hfreshHash k hk
  refine ⟨generateApiKey_length hlen, ?_, ?_, ?_, ?_, ?_, ?_, ?_, ?_⟩
  · rw [generateApiKey_data]
    rfl
  · rw [generateApiKey_data]
    intro c hc
    rw [show List.drop 4 (['r', 'l', 'k', '_'] ++ randomBytes.flatMap byteToHex) =
        randomBytes.flatMap byteToHex from rfl] at hc
    obtain ⟨b, hb, hcb⟩ := List.mem_flatMap.mp hc
    exact byteToHex_isLowerHex (hbytes b hb) c hcb
  · show getApiKeyById
        (db ++ [⟨newId, input.userId, hashApiKey (generateApiKey randomBytes),
                 input.name, createdAt, none⟩]) newId = _
    unfold getApiKeyById
    rw [List.find?_append, hIdNone]
    simp
  · intro he
    have := congrArg String.length he
    rw [hashApiKey_length, generateApiKey_length hlen] at this
    omega
  · show (validateApiKey
        (db ++ [⟨newId, input.userId, hashApiKey (generateApiKey randomBytes),
                 input.name, createdAt, none⟩])
        (generateApiKey randomBytes) nowStr).1 = _
    simp [validateApiKey, List.find?_append, hHashNone]
  · show deleteApiKey
        (db ++ [⟨newId, input.userId, hashApiKey (generateApiKey randomBytes),
                 input.name, createdAt, none⟩]) newId = (true, db)
    unfold deleteApiKey getApiKeyById
    rw [List.find?_append, hIdNone]
    simp only [List.find?_singleton]
    rw [if_pos (by simp)]
    rw [List.filter_append]
    have hkeep : db.filter (fun k : ApiKey => ¬ k.id == newId) = db := by
      rw [List.filter_eq_self]
      intro k hk
      have := List.find?_eq_none.mp hIdNone k hk
      simpa using this
    rw [hkeep]
    simp
  · simp [validateApiKey, hHashNone]
  · intro keys someId
    unfold deleteApiKey
    cases h : getApiKeyById keys someId with
    | none => rfl
    | some k => rfl

theorem apiKey_lifecycle_roundtrip_witness :
    ((List.replicate 16 0).length = 16 ∧
     (∀ b ∈ List.replicate 16 (0 : Nat), b < 256) ∧
     getApiKeyById [] "id1" = none ∧
     (∀ k ∈ ([] : List ApiKey),
       k.key_hash ≠ hashApiKey (generateApiKey (List.replicate 16 0)))) ∧
    ((generateApiKey (List.replicate 16 0)).length = 36 ∧
     (generateApiKey (List.replicate 16 0)).data.take 4 = ['r', 'l', 'k', '_'] ∧
     (∀ c ∈ (generateApiKey (List.replicate 16 0)).data.drop 4,
       isLowerHexChar c = true) ∧
     (createApiKey [] ⟨"user_1", "Key"⟩ "id1" (List.replicate 16 0) "c0").1 =
       some ⟨"id1", "user_1", hashApiKey (generateApiKey (List.replicate 16 0)),
             "Key", "c0", none⟩ ∧
     hashApiKey (generateApiKey (List.replicate 16 0)) ≠
       generateApiKey (List.replicate 16 0) ∧
     (validateApiKey
         (createApiKey [] ⟨"user_1", "Key"⟩ "id1" (List.replicate 16 0) "c0").2.2
         (generateApiKey (List.replicate 16 0)) "t0").1 =
       some ⟨"id1", "user_1", hashApiKey (generateApiKey (List.replicate 16 0)),
             "Key", "c0", none⟩ ∧
     deleteApiKey
         (createApiKey [] ⟨"user_1", "Key"⟩ "id1" (List.replicate 16 0) "c0").2.2
         "id1" = (true, []) ∧
     (validateApiKey [] (generateApiKey (List.replicate 16 0)) "t0").1 = none ∧
     (∀ (keys : List ApiKey) (someId : String),
       (deleteApiKey keys someId).1 = (getApiKeyById keys someId).isSome)) :=
  ⟨⟨by decide, by decide, by decide, by decide⟩,
   apiKey_lifecycle_roundtrip [] ⟨"user_1", "Key"⟩ "id1" "c0" "t0"
     (List.replicate 16 0) (by decide) (by decide) (by decide) (by decide)⟩

/-! ## C7 -/

/-- C7: `cleanupOldEntries` keeps exactly the records with
`window_start ≥ now - retentionMs` (regardless of credential or currency of
the window), removes exactly those strictly below the cutoff, and reports
exactly the number of removed records. -/
theorem cleanupOldEntries_exact (db : List RateRecord) (retentionMs now : Nat) :
    (∀ r : RateRecord,
        r ∈ (cleanupOldEntries db retentionMs now).2 ↔
          r ∈ db ∧ ¬((r.window_start : Int) < (now : Int) - (retentionMs : Int))) ∧
    (cleanupOldEntries db retentionMs now).1 =
      db.countP (fun r =>
        decide ((r.window_start : Int) < (now : Int) - (retentionMs : Int))) ∧
    (cleanupOldEntries db retentionMs now).1 +
        (cleanupOldEntries db retentionMs now).2.length = db.length := by
  refine ⟨fun r => ?_, ?_, ?_⟩
  · simp [cleanupOldEntries, List.mem_filter]
  · simp [cleanupOldEntries, List.countP_eq_length_filter]
  · simp only [cleanupOldEntries, ← List.countP_eq_length_filter]
    have := List.length_eq_countP_add_countP
      (fun r : RateRecord =>
        decide ((r.window_start : Int) < (now : Int) - (retentionMs : Int))) db
    simp only [decide_eq_true_eq] at this
    omega



/-! ## C3 -/

/-- C3 counterexample: an `Authorization` header that is present but
malformed (`"Bearer not-a-key"` does not match
`/^Bearer\s+(rlk_[a-f0-9]{32})$/i`) is NOT rejected with 401: the gate
falls back to the dummy identity, invokes the downstream handler
(status 200 here), and leaves the stores untouched. -/
theorem gate_malformed_header_bypasses_auth :
    (some "Bearer not-a-key" ≠ (none : Option String)) ∧
    extractApiKey (some "Bearer not-a-key") = none ∧
    withRateLimit (fun _ => ⟨200, "ok", []⟩) ⟨[], []⟩ (some "Bearer not-a-key")
        ⟨5, 60000⟩ 0 "r1" "t1" = (⟨200, "ok", []⟩, ⟨[], []⟩) ∧
    (withRateLimit (fun _ => ⟨200, "ok", []⟩) ⟨[], []⟩ (some "Bearer not-a-key")
        ⟨5, 60000⟩ 0 "r1" "t1").1.status ≠ 401 := by
  decide

/-- C3 (amended): a presented credential that is syntactically well-formed
(the header matches `Bearer rlk_` + 32 hex, case-insensitively) but does
not match any stored credential is always rejected with 401 — the store is
untouched and the downstream handler is never invoked (the outcome is the
same fixed 401 response for every handler); a malformed or absent
credential instead falls back to the default identity with no rate
limiting. -/
theorem gate_presented_credential_rejection
    (st : Stores) (hdr plainKey : String) (cfg : RateLimitConfig) (now : Nat)
    (newRowId nowStr : String)
    (hex : extractApiKey (some hdr) = some plainKey)
    (hnomatch : ∀ k ∈ st.apiKeys, k.key_hash ≠ hashApiKey plainKey) :
    (∀ handler : HandlerContext → HttpResponse,
      withRateLimit handler st (some hdr) cfg now newRowId nowStr =
        (⟨401, "Invalid API key", []⟩, st)) ∧
    (∀ (handler : HandlerContext → HttpResponse) (hdr2 : Option String),
      extractApiKey hdr2 = none →
      withRateLimit handler st hdr2 cfg now newRowId nowStr =
        (handler ⟨none, DUMMY_USER_ID⟩, st)) := by
  have hvn : validateApiKey st.apiKeys plainKey nowStr = (none, st.apiKeys) := by
    unfold validateApiKey
    rw [List.find?_eq_none.mpr (fun k hk => by simpa using hnomatch k hk)]
  refine ⟨fun handler => ?_, fun handler hdr2 hex2 => ?_⟩
  · unfold withRateLimit
    simp only [hex, hvn]
  · unfold withRateLimit
    simp only [hex2]

theorem gate_presented_credential_rejection_witness :
    (extractApiKey (some "Bearer rlk_00000000000000000000000000000000") =
        some "rlk_00000000000000000000000000000000" ∧
      (∀ k ∈ ([] : List ApiKey),
        k.key_hash ≠ hashApiKey "rlk_00000000000000000000000000000000")) ∧
    ((∀ handler : HandlerContext → HttpResponse,
        withRateLimit handler ⟨[], []⟩
            (some "Bearer rlk_00000000000000000000000000000000")
            ⟨5, 60000⟩ 0 "r1" "t1" =
          (⟨401, "Invalid API key", []⟩, ⟨[], []⟩)) ∧
      (∀ (handler : HandlerContext → HttpResponse) (hdr2 : Option String),
        extractApiKey hdr2 = none →
        withRateLimit handler ⟨[], []⟩ hdr2 ⟨5, 60000⟩ 0 "r1" "t1" =
          (handler ⟨none, DUMMY_USER_ID⟩, ⟨[], []⟩))) :=
  ⟨⟨by decide, by decide⟩,
   gate_presented_credential_rejection ⟨[], []⟩
     "Bearer rlk_00000000000000000000000000000000"
     "rlk_00000000000000000000000000000000" ⟨5, 60000⟩ 0 "r1" "t1"
     (by decide) (by decide)⟩

/-! ## C4 -/

/-- C4 counterexample: a request denied with 429 does mutate persistent
state.  The store holds one credential (hash of
`rlk_00000000000000000000000000000000`) whose quota for the current window
is already exhausted (`count = 1`, `maxRequests = 1`): the gate answers
429, the counter store is unchanged, but the credential's `last_used_at`
has been updated from `none` to `some "T"` by the validation step that
precedes the quota check — so the credential store is NOT left exactly as
it was. -/
theorem gate_429_updates_last_used :
    (withRateLimit (fun _ => ⟨200, "ok", []⟩)
        ⟨[⟨"k1", "user_1",
           "3acd944a1820a489f6ba527ea58c976c79bcb0563a8f165c13e97ecf774d0ad4",
           "n", "c0", none⟩], [⟨"r1", "k1", 0, 1⟩]⟩
        (some "Bearer rlk_00000000000000000000000000000000")
        ⟨1, 60000⟩ 0 "r2" "T").1.status = 429 ∧
    (withRateLimit (fun _ => ⟨200, "ok", []⟩)
        ⟨[⟨"k1", "user_1",
           "3acd944a1820a489f6ba527ea58c976c79bcb0563a8f165c13e97ecf774d0ad4",
           "n", "c0", none⟩], [⟨"r1", "k1", 0, 1⟩]⟩
        (some "Bearer rlk_00000000000000000000000000000000")
        ⟨1, 60000⟩ 0 "r2" "T").2.rateLog = [⟨"r1", "k1", 0, 1⟩] ∧
    (withRateLimit (fun _ => ⟨200, "ok", []⟩)
        ⟨[⟨"k1", "user_1",
           "3acd944a1820a489f6ba527ea58c976c79bcb0563a8f165c13e97ecf774d0ad4",
           "n", "c0", none⟩], [⟨"r1", "k1", 0, 1⟩]⟩
        (some "Bearer rlk_00000000000000000000000000000000")
        ⟨1, 60000⟩ 0 "r2" "T").2.apiKeys ≠
      [⟨"k1", "user_1",
        "3acd944a1820a489f6ba527ea58c976c79bcb0563a8f165c13e97ecf774d0ad4",
        "n", "c0", none⟩] := by
  decide

/-- C4 (amended): a 401 denial performs zero mutations (the response and
both stores are exactly as before, for every handler), while a 429 denial
leaves the counter store untouched but carries exactly one credential-store
mutation: the validated credential's `last_used_at` is set by the
validation step that precedes the quota check. -/
theorem gate_denied_request_mutation_scope
    (st : Stores) (hdr plainKey : String) (cfg : RateLimitConfig) (now : Nat)
    (newRowId nowStr : String)
    (hex : extractApiKey (some hdr) = some plainKey) :
    ((validateApiKey st.apiKeys plainKey nowStr).1 = none →
      ∀ handler : HandlerContext → HttpResponse,
        withRateLimit handler st (some hdr) cfg now newRowId nowStr =
          (⟨401, "Invalid API key", []⟩, st)) ∧
    (∀ apiKey : ApiKey,
      (validateApiKey st.apiKeys plainKey nowStr).1 = some apiKey →
      cfg.maxRequests ≤ currentCount st.rateLog apiKey.id
        (getWindowStart cfg.windowMs now) →
      ∀ handler : HandlerContext → HttpResponse,
        (withRateLimit handler st (some hdr) cfg now newRowId nowStr).1.status
          = 429 ∧
        (withRateLimit handler st (some hdr) cfg now newRowId nowStr).2.rateLog
          = st.rateLog ∧
        (withRateLimit handler st (some hdr) cfg now newRowId nowStr).2.apiKeys
          = st.apiKeys.map fun j =>
              if j.id == apiKey.id then { j with last_used_at := some nowStr }
              else j) := by
  constructor
  · intro hv1 handler
    rcases hvp : validateApiKey st.apiKeys plainKey nowStr with ⟨v, keys'⟩
    rw [hvp] at hv1
    subst hv1
    unfold withRateLimit
    simp only [hex, hvp]
  · intro apiKey hv1 hcount handler
    rcases hvp : validateApiKey st.apiKeys plainKey nowStr with ⟨v, keys'⟩
    rw [hvp] at hv1
    subst hv1
    obtain ⟨_, hkeys'⟩ := validateApiKey_some hvp
    have hck := checkRateLimit_denied_eq st.rateLog apiKey.id newRowId cfg now hcount
    have hwr : withRateLimit handler st (some hdr) cfg now newRowId nowStr =
        (addRateLimitHeaders
          (setHeader ⟨429, "Rate limit exceeded", []⟩ "Retry-After"
            (toString
              (((max 0 ((getWindowStart cfg.windowMs now + cfg.windowMs : Int)
                  - (now : Int))).toNat + 999) / 1000)))
          0 (getWindowStart cfg.windowMs now + cfg.windowMs) cfg.maxRequests,
         ⟨keys', st.rateLog⟩) := by
      unfold withRateLimit
      simp only [hex, hvp, hck]
      rfl
    refine ⟨?_, ?_, ?_⟩
    · rw [hwr]
      rfl
    · rw [hwr]
    · rw [hwr]
      exact hkeys'

theorem gate_denied_request_mutation_scope_witness :
    extractApiKey (some "Bearer rlk_00000000000000000000000000000000") =
      some "rlk_00000000000000000000000000000000" ∧
    (((validateApiKey
          [⟨"k1", "user_1",
            "3acd944a1820a489f6ba527ea58c976c79bcb0563a8f165c13e97ecf774d0ad4",
            "n", "c0", none⟩]
          "rlk_00000000000000000000000000000000" "T").1 = none →
       ∀ handler : HandlerContext → HttpResponse,
         withRateLimit handler
             ⟨[⟨"k1", "user_1",
                "3acd944a1820a489f6ba527ea58c976c79bcb0563a8f165c13e97ecf774d0ad4",
                "n", "c0", none⟩], [⟨"r1", "k1", 0, 1⟩]⟩
             (some "Bearer rlk_00000000000000000000000000000000")
             ⟨1, 60000⟩ 0 "r2" "T" =
           (⟨401, "Invalid API key", []⟩,
            ⟨[⟨"k1", "user_1",
               "3acd944a1820a489f6ba527ea58c976c79bcb0563a8f165c13e97ecf774d0ad4",
               "n", "c0", none⟩], [⟨"r1", "k1", 0, 1⟩]⟩)) ∧
     (∀ apiKey : ApiKey,
       (validateApiKey
           [⟨"k1", "user_1",
             "3acd944a1820a489f6ba527ea58c976c79bcb0563a8f165c13e97ecf774d0ad4",
             "n", "c0", none⟩]
           "rlk_00000000000000000000000000000000" "T").1 = some apiKey →
       (1 : Nat) ≤ currentCount [⟨"r1", "k1", 0, 1⟩] apiKey.id
         (getWindowStart 60000 0) →
       ∀ handler : HandlerContext → HttpResponse,
         (withRateLimit handler
             ⟨[⟨"k1", "user_1",
                "3acd944a1820a489f6ba527ea58c976c79bcb0563a8f165c13e97ecf774d0ad4",
                "n", "c0", none⟩], [⟨"r1", "k1", 0, 1⟩]⟩
             (some "Bearer rlk_00000000000000000000000000000000")
             ⟨1, 60000⟩ 0 "r2" "T").1.status = 429 ∧
         (withRateLimit handler
             ⟨[⟨"k1", "user_1",
                "3acd944a1820a489f6ba527ea58c976c79bcb0563a8f165c13e97ecf774d0ad4",
                "n", "c0", none⟩], [⟨"r1", "k1", 0, 1⟩]⟩
             (some "Bearer rlk_00000000000000000000000000000000")
             ⟨1, 60000⟩ 0 "r2" "T").2.rateLog = [⟨"r1", "k1", 0, 1⟩] ∧
         (withRateLimit handler
             ⟨[⟨"k1", "user_1",
                "3acd944a1820a489f6ba527ea58c976c79bcb0563a8f165c13e97ecf774d0ad4",
                "n", "c0", none⟩], [⟨"r1", "k1", 0, 1⟩]⟩
             (some "Bearer rlk_00000000000000000000000000000000")
             ⟨1, 60000⟩ 0 "r2" "T").2.apiKeys =
           List.map (fun j =>
              if j.id == apiKey.id then { j with last_used_at := some "T" }
              else j)
             [⟨"k1", "user_1",
               "3acd944a1820a489f6ba527ea58c976c79bcb0563a8f165c13e97ecf774d0ad4",
               "n", "c0", none⟩])) :=
  ⟨by decide,
   gate_denied_request_mutation_scope
     ⟨[⟨"k1", "user_1",
        "3acd944a1820a489f6ba527ea58c976c79bcb0563a8f165c13e97ecf774d0ad4",
        "n", "c0", none⟩], [⟨"r1", "k1", 0, 1⟩]⟩
     "Bearer rlk_00000000000000000000000000000000"
     "rlk_00000000000000000000000000000000" ⟨1, 60000⟩ 0 "r2" "T" (by decide)⟩

/-! ## C6 -/

/-- C6: quota metadata on credentialed, rate-checked requests.  On an
allowed request the outbound response is the downstream handler's response
with status and body unaltered; the gate adds exactly the three quota
headers — `X-RateLimit-Limit` = configured max, `X-RateLimit-Remaining` =
the limiter's remaining, `X-RateLimit-Reset` = window end in epoch seconds
(ceiling-rounded) — and every other header (in particular `Retry-After`) is
exactly what the handler set.  On a denied request the response is 429 and
carries `Retry-After` = ceiling(retryAfterMs/1000) seconds together with
the three quota headers, `Remaining` being 0. -/
theorem gate_response_quota_headers
    (st : Stores) (hdr plainKey : String) (cfg : RateLimitConfig) (now : Nat)
    (newRowId nowStr : String) (apiKey : ApiKey) (keys' : List ApiKey)
    (hex : extractApiKey (some hdr) = some plainKey)
    (hval : validateApiKey st.apiKeys plainKey nowStr = (some apiKey, keys')) :
    (¬ cfg.maxRequests ≤ currentCount st.rateLog apiKey.id
        (getWindowStart cfg.windowMs now) →
      ∀ handler : HandlerContext → HttpResponse,
        (withRateLimit handler st (some hdr) cfg now newRowId nowStr).1.status =
          (handler ⟨some apiKey, apiKey.user_id⟩).status ∧
        (withRateLimit handler st (some hdr) cfg now newRowId nowStr).1.body =
          (handler ⟨some apiKey, apiKey.user_id⟩).body ∧
        getHeader (withRateLimit handler st (some hdr) cfg now newRowId nowStr).1
            "X-RateLimit-Limit" = some (toString cfg.maxRequests) ∧
        getHeader (withRateLimit handler st (some hdr) cfg now newRowId nowStr).1
            "X-RateLimit-Remaining" =
          some (toString ((cfg.maxRequests : Int) -
            (currentCount st.rateLog apiKey.id (getWindowStart cfg.windowMs now) :
              Int) - 1)) ∧
        getHeader (withRateLimit handler st (some hdr) cfg now newRowId nowStr).1
            "X-RateLimit-Reset" =
          some (toString
            ((getWindowStart cfg.windowMs now + cfg.windowMs + 999) / 1000)) ∧
        (∀ name : String, name ≠ "X-RateLimit-Limit" →
          name ≠ "X-RateLimit-Remaining" → name ≠ "X-RateLimit-Reset" →
          getHeader
              (withRateLimit handler st (some hdr) cfg now newRowId nowStr).1
              name =
            getHeader (handler ⟨some apiKey, apiKey.user_id⟩) name)) ∧
    (cfg.maxRequests ≤ currentCount st.rateLog apiKey.id
        (getWindowStart cfg.windowMs now) →
      ∀ handler : HandlerContext → HttpResponse,
        (withRateLimit handler st (some hdr) cfg now newRowId nowStr).1.status =
          429 ∧
        getHeader (withRateLimit handler st (some hdr) cfg now newRowId nowStr).1
            "Retry-After" =
          some (toString
            (((max 0 ((getWindowStart cfg.windowMs now + cfg.windowMs : Int) -
                (now : Int))).toNat + 999) / 1000)) ∧
        getHeader (withRateLimit handler st (some hdr) cfg now newRowId nowStr).1
            "X-RateLimit-Remaining" = some (toString (0 : Int)) ∧
        getHeader (withRateLimit handler st (some hdr) cfg now newRowId nowStr).1
            "X-RateLimit-Limit" = some (toString cfg.maxRequests) ∧
        getHeader (withRateLimit handler st (some hdr) cfg now newRowId nowStr).1
            "X-RateLimit-Reset" =
          some (toString
            ((getWindowStart cfg.windowMs now + cfg.windowMs + 999) / 1000))) := by
  constructor
  · intro hnot handler
    have hck := checkRateLimit_allowed_eq st.rateLog apiKey.id newRowId cfg now hnot
    have hwr : withRateLimit handler st (some hdr) cfg now newRowId nowStr =
        (addRateLimitHeaders (handler ⟨some apiKey, apiKey.user_id⟩)
          ((cfg.maxRequests : Int) -
            (currentCount st.rateLog apiKey.id (getWindowStart cfg.windowMs now) :
              Int) - 1)
          (getWindowStart cfg.windowMs now + cfg.windowMs) cfg.maxRequests,
         ⟨keys',
          upsertIncrement st.rateLog newRowId apiKey.id
            (getWindowStart cfg.windowMs now)⟩) := by
      unfold withRateLimit
      simp only [hex, hval, hck]
      rw [if_pos trivial]
    rw [hwr]
    refine ⟨addRateLimitHeaders_status _ _ _ _, addRateLimitHeaders_body _ _ _ _,
      getHeader_addRateLimitHeaders_limit _ _ _ _,
      getHeader_addRateLimitHeaders_remaining _ _ _ _,
      getHeader_addRateLimitHeaders_reset _ _ _ _,
      fun name h1 h2 h3 => getHeader_addRateLimitHeaders_other _ _ _ _ name h1 h2 h3⟩
  · intro hle handler
    have hck := checkRateLimit_denied_eq st.rateLog apiKey.id newRowId cfg now hle
    have hwr : withRateLimit handler st (some hdr) cfg now newRowId nowStr =
        (addRateLimitHeaders
          (setHeader ⟨429, "Rate limit exceeded", []⟩ "Retry-After"
            (toString
              (((max 0 ((getWindowStart cfg.windowMs now + cfg.windowMs : Int)
                  - (now : Int))).toNat + 999) / 1000)))
          0 (getWindowStart cfg.windowMs now + cfg.windowMs) cfg.maxRequests,
         ⟨keys', st.rateLog⟩) := by
      unfold withRateLimit
      simp only [hex, hval, hck]
      rfl
    rw [hwr]
    refine ⟨rfl, ?_, getHeader_addRateLimitHeaders_remaining _ _ _ _,
      getHeader_addRateLimitHeaders_limit _ _ _ _,
      getHeader_addRateLimitHeaders_reset _ _ _ _⟩
    rw [getHeader_addRateLimitHeaders_other _ _ _ _ "Retry-After"
      (by decide) (by decide) (by decide)]
    exact getHeader_setHeader_self _ _ _

theorem gate_response_quota_headers_witness :
    (extractApiKey (some "Bearer rlk_00000000000000000000000000000000") =
        some "rlk_00000000000000000000000000000000" ∧
      validateApiKey
          [⟨"k1", "user_1",
            "3acd944a1820a489f6ba527ea58c976c79bcb0563a8f165c13e97ecf774d0ad4",
            "n", "c0", none⟩]
          "rlk_00000000000000000000000000000000" "T" =
        (some ⟨"k1", "user_1",
            "3acd944a1820a489f6ba527ea58c976c79bcb0563a8f165c13e97ecf774d0ad4",
            "n", "c0", none⟩,
         [⟨"k1", "user_1",
            "3acd944a1820a489f6ba527ea58c976c79bcb0563a8f165c13e97ecf774d0ad4",
            "n", "c0", some "T"⟩])) ∧
    ((¬ (2 : Nat) ≤ currentCount [⟨"r1", "k1", 0, 1⟩] "k1" (getWindowStart 60000 0) →
       ∀ handler : HandlerContext → HttpResponse,
         (withRateLimit handler
             ⟨[⟨"k1", "user_1",
                "3acd944a1820a489f6ba527ea58c976c79bcb0563a8f165c13e97ecf774d0ad4",
                "n", "c0", none⟩], [⟨"r1", "k1", 0, 1⟩]⟩
             (some "Bearer rlk_00000000000000000000000000000000")
             ⟨2, 60000⟩ 0 "r2" "T").1.status =
           (handler ⟨some ⟨"k1", "user_1",
              "3acd944a1820a489f6ba527ea58c976c79bcb0563a8f165c13e97ecf774d0ad4",
              "n", "c0", none⟩, "user_1"⟩).status ∧
         (withRateLimit handler
             ⟨[⟨"k1", "user_1",
                "3acd944a1820a489f6ba527ea58c976c79bcb0563a8f165c13e97ecf774d0ad4",
                "n", "c0", none⟩], [⟨"r1", "k1", 0, 1⟩]⟩
             (some "Bearer rlk_00000000000000000000000000000000")
             ⟨2, 60000⟩ 0 "r2" "T").1.body =
           (handler ⟨some ⟨"k1", "user_1",
              "3acd944a1820a489f6ba527ea58c976c79bcb0563a8f165c13e97ecf774d0ad4",
              "n", "c0", none⟩, "user_1"⟩).body ∧
         getHeader (withRateLimit handler
             ⟨[⟨"k1", "user_1",
                "3acd944a1820a489f6ba527ea58c976c79bcb0563a8f165c13e97ecf774d0ad4",
                "n", "c0", none⟩], [⟨"r1", "k1", 0, 1⟩]⟩
             (some "Bearer rlk_00000000000000000000000000000000")
             ⟨2, 60000⟩ 0 "r2" "T").1 "X-RateLimit-Limit" =
           some (toString (2 : Nat)) ∧
         getHeader (withRateLimit handler
             ⟨[⟨"k1", "user_1",
                "3acd944a1820a489f6ba527ea58c976c79bcb0563a8f165c13e97ecf774d0ad4",
                "n", "c0", none⟩], [⟨"r1", "k1", 0, 1⟩]⟩
             (some "Bearer rlk_00000000000000000000000000000000")
             ⟨2, 60000⟩ 0 "r2" "T").1 "X-RateLimit-Remaining" =
           some (toString (((2 : Nat) : Int) -
             (currentCount [⟨"r1", "k1", 0, 1⟩] "k1" (getWindowStart 60000 0) :
               Int) - 1)) ∧
         getHeader (withRateLimit handler
             ⟨[⟨"k1", "user_1",
                "3acd944a1820a489f6ba527ea58c976c79bcb0563a8f165c13e97ecf774d0ad4",
                "n", "c0", none⟩], [⟨"r1", "k1", 0, 1⟩]⟩
             (some "Bearer rlk_00000000000000000000000000000000")
             ⟨2, 60000⟩ 0 "r2" "T").1 "X-RateLimit-Reset" =
           some (toString ((getWindowStart 60000 0 + 60000 + 999) / 1000)) ∧
         (∀ name : String, name ≠ "X-RateLimit-Limit" →
           name ≠ "X-RateLimit-Remaining" → name ≠ "X-RateLimit-Reset" →
           getHeader (withRateLimit handler
               ⟨[⟨"k1", "user_1",
                  "3acd944a1820a489f6ba527ea58c976c79bcb0563a8f165c13e97ecf774d0ad4",
                  "n", "c0", none⟩], [⟨"r1", "k1", 0, 1⟩]⟩
               (some "Bearer rlk_00000000000000000000000000000000")
               ⟨2, 60000⟩ 0 "r2" "T").1 name =
             getHeader (handler ⟨some ⟨"k1", "user_1",
                "3acd944a1820a489f6ba527ea58c976c79bcb0563a8f165c13e97ecf774d0ad4",
                "n", "c0", none⟩, "user_1"⟩) name)) ∧
     ((2 : Nat) ≤ currentCount [⟨"r1", "k1", 0, 1⟩] "k1" (getWindowStart 60000 0) →
       ∀ handler : HandlerContext → HttpResponse,
         (withRateLimit handler
             ⟨[⟨"k1", "user_1",
                "3acd944a1820a489f6ba527ea58c976c79bcb0563a8f165c13e97ecf774d0ad4",
                "n", "c0", none⟩], [⟨"r1", "k1", 0, 1⟩]⟩
             (some "Bearer rlk_00000000000000000000000000000000")
             ⟨2, 60000⟩ 0 "r2" "T").1.status = 429 ∧
         getHeader (withRateLimit handler
             ⟨[⟨"k1", "user_1",
                "3acd944a1820a489f6ba527ea58c976c79bcb0563a8f165c13e97ecf774d0ad4",
                "n", "c0", none⟩], [⟨"r1", "k1", 0, 1⟩]⟩
             (some "Bearer rlk_00000000000000000000000000000000")
             ⟨2, 60000⟩ 0 "r2" "T").1 "Retry-After" =
           some (toString
             (((max 0 ((getWindowStart 60000 0 + 60000 : Int) - ((0 : Nat) : Int))).toNat
                + 999) / 1000)) ∧
         getHeader (withRateLimit handler
             ⟨[⟨"k1", "user_1",
                "3acd944a1820a489f6ba527ea58c976c79bcb0563a8f165c13e97ecf774d0ad4",
                "n", "c0", none⟩], [⟨"r1", "k1", 0, 1⟩]⟩
             (some "Bearer rlk_00000000000000000000000000000000")
             ⟨2, 60000⟩ 0 "r2" "T").1 "X-RateLimit-Remaining" =
           some (toString (0 : Int)) ∧
         getHeader (withRateLimit handler
             ⟨[⟨"k1", "user_1",
                "3acd944a1820a489f6ba527ea58c976c79bcb0563a8f165c13e97ecf774d0ad4",
                "n", "c0", none⟩], [⟨"r1", "k1", 0, 1⟩]⟩
             (some "Bearer rlk_00000000000000000000000000000000")
             ⟨2, 60000⟩ 0 "r2" "T").1 "X-RateLimit-Limit" =
           some (toString (2 : Nat)) ∧
         getHeader (withRateLimit handler
             ⟨[⟨"k1", "user_1",
                "3acd944a1820a489f6ba527ea58c976c79bcb0563a8f165c13e97ecf774d0ad4",
                "n", "c0", none⟩], [⟨"r1", "k1", 0, 1⟩]⟩
             (some "Bearer rlk_00000000000000000000000000000000")
             ⟨2, 60000⟩ 0 "r2" "T").1 "X-RateLimit-Reset" =
           some (toString ((getWindowStart 60000 0 + 60000 + 999) / 1000)))) :=
  ⟨⟨by decide, by decide⟩,
   gate_response_quota_headers
     ⟨[⟨"k1", "user_1",
        "3acd944a1820a489f6ba527ea58c976c79bcb0563a8f165c13e97ecf774d0ad4",
        "n", "c0", none⟩], [⟨"r1", "k1", 0, 1⟩]⟩
     "Bearer rlk_00000000000000000000000000000000"
     "rlk_00000000000000000000000000000000" ⟨2, 60000⟩ 0 "r2" "T"
     ⟨"k1", "user_1",
      "3acd944a1820a489f6ba527ea58c976c79bcb0563a8f165c13e97ecf774d0ad4",
      "n", "c0", none⟩
     [⟨"k1", "user_1",
       "3acd944a1820a489f6ba527ea58c976c79bcb0563a8f165c13e97ecf774d0ad4",
       "n", "c0", some "T"⟩]
     (by decide) (by decide)⟩
